import Mathlib

/-!
Shallow embedding of the task-tracking data model and persistence layer of
`app.py` (dataclasses `Task`, `TaskUpdate`, the `DataManager` local-file and
spreadsheet branches, and the `DashboardView.calculate_stats` /
`Task.is_urgent_today` query helpers), together with theorems settling the
frozen specification claims.

Python dynamic values that can be a string, an int, a list or `None` are
embedded as the inductive `PyVal`.  Python builtins used by the source
(`str.strip`, `html.unescape`, `re.sub` for tag removal, `str()` rendering of
lists, `ast.literal_eval`) are modelled explicitly below; the entity model,
serialization and persistence functions are translated from the source.
-/

/-- Dynamic Python value as it appears in the task records: a string, an
integer, a (possibly nested) list, or `None`. -/
inductive PyVal where
  | str (s : String)
  | int (n : Int)
  | list (xs : List PyVal)
  | none

mutual

/-- Boolean equality on `PyVal` (the nested inductive does not support the
derived instance). -/
def PyVal.beq : PyVal → PyVal → Bool
  | .str a, .str b => a == b
  | .int a, .int b => a == b
  | .list xs, .list ys => PyVal.beqList xs ys
  | .none, .none => true
  | _, _ => false

/-- Pointwise `PyVal.beq` on lists. -/
def PyVal.beqList : List PyVal → List PyVal → Bool
  | [], [] => true
  | x :: xs, y :: ys => PyVal.beq x y && PyVal.beqList xs ys
  | _, _ => false

end

mutual

theorem PyVal.beq_refl : ∀ a : PyVal, PyVal.beq a a = true
  | .str s => by simp [PyVal.beq]
  | .int n => by simp [PyVal.beq]
  | .list xs => by simpa [PyVal.beq] using PyVal.beqList_refl xs
  | .none => by simp [PyVal.beq]

theorem PyVal.beqList_refl : ∀ xs : List PyVal, PyVal.beqList xs xs = true
  | [] => by simp [PyVal.beqList]
  | x :: xs => by
    simp only [PyVal.beqList, Bool.and_eq_true]
    exact ⟨PyVal.beq_refl x, PyVal.beqList_refl xs⟩

end

theorem PyVal.ne_of_beq_false {a b : PyVal} (h : PyVal.beq a b = false) : a ≠ b := by
  intro he
  rw [he, PyVal.beq_refl] at h
  exact Bool.noConfusion h

/-- Characters treated as whitespace by Python `str.strip()` (ASCII subset,
which covers every string this development manipulates). -/
def isPySpace (c : Char) : Bool :=
  c = ' ' || c = '\t' || c = '\n' || c = '\r' || c = '\x0b' || c = '\x0c'

/-- Model of Python `str.strip()`: drop leading and trailing whitespace. -/
def pyStrip (s : String) : String :=
  String.mk (((s.data.dropWhile isPySpace).reverse.dropWhile isPySpace).reverse)

/-- Fuel-indexed worker for the `html.unescape` model; every recursive call
shortens the input, so fuel equal to the input length never runs out. -/
def unescapeFuel : Nat → List Char → List Char
  | 0, _ => []
  | _ + 1, [] => []
  | fuel + 1, c :: cs =>
    if c = '&' then
      if cs.take 4 = ['a', 'm', 'p', ';'] then '&' :: unescapeFuel fuel (cs.drop 4)
      else if cs.take 3 = ['l', 't', ';'] then '<' :: unescapeFuel fuel (cs.drop 3)
      else if cs.take 3 = ['g', 't', ';'] then '>' :: unescapeFuel fuel (cs.drop 3)
      else if cs.take 5 = ['q', 'u', 'o', 't', ';'] then '"' :: unescapeFuel fuel (cs.drop 5)
      else if cs.take 4 = ['#', '3', '9', ';'] then '\'' :: unescapeFuel fuel (cs.drop 4)
      else c :: unescapeFuel fuel cs
    else c :: unescapeFuel fuel cs

/-- Model of Python `html.unescape` restricted to the named/numeric entities
relevant to this code base (`&amp;` `&lt;` `&gt;` `&quot;` `&#39;`); like the
builtin it makes a single left-to-right pass and does not rescan
replacements. -/
def unescapeChars (l : List Char) : List Char := unescapeFuel l.length l

/-- Characters after the first `>` of the remainder, if any; helper for the
`re.sub` tag-removal model below. -/
def findTagEnd : List Char → Option (List Char)
  | [] => Option.none
  | c :: cs => if c = '>' then some cs else findTagEnd cs

theorem findTagEnd_length {cs rest : List Char} (h : findTagEnd cs = some rest) :
    rest.length < cs.length := by
  induction cs with
  | nil => simp [findTagEnd] at h
  | cons c cs ih =>
    by_cases hc : c = '>'
    · simp [findTagEnd, hc] at h
      simp [← h]
    · simp [findTagEnd, hc] at h
      exact Nat.lt_trans (ih h) (by simp)

/-- Fuel-indexed worker for the tag-removal model; every recursive call
shortens the input, so fuel equal to the input length never runs out. -/
def stripTagsFuel : Nat → List Char → List Char
  | 0, _ => []
  | _ + 1, [] => []
  | fuel + 1, c :: cs =>
    if c = '<' then
      match findTagEnd cs with
      | some rest => stripTagsFuel fuel rest
      | Option.none => c :: stripTagsFuel fuel cs
    else c :: stripTagsFuel fuel cs

/-- Model of `re.sub(r'<[^>]*>', '', text)`: each `<` that is followed by a
later `>` is removed together with everything up to that `>`; a `<` with no
subsequent `>` matches nothing and stays. -/
def stripTagsChars (l : List Char) : List Char := stripTagsFuel l.length l

/-- `clean_val` from `Task.__post_init__`: empty input gives `""`, otherwise
unescape entities, strip `<...>` tags, trim whitespace. -/
def cleanVal (s : String) : String :=
  if s = "" then "" else pyStrip (String.mk (stripTagsChars (unescapeChars s.data)))

/-- Fuel-indexed worker computing decimal digits least significant first;
fuel equal to the number itself always suffices. -/
def natDigitsRevFuel : Nat → Nat → List Char
  | 0, _ => []
  | fuel + 1, n => if n = 0 then [] else Char.ofNat (48 + n % 10) :: natDigitsRevFuel fuel (n / 10)

/-- Decimal digits of `n`, least significant first; model of Python decimal
rendering. -/
def natDigitsRev (n : Nat) : List Char := natDigitsRevFuel n n

/-- Model of Python `str` on a non-negative integer. -/
def pyNatStr (n : Nat) : String :=
  if n = 0 then "0" else String.mk (natDigitsRev n).reverse

/-- Model of Python `str` on an arbitrary integer. -/
def pyIntStr (i : Int) : String :=
  if i < 0 then "-" ++ pyNatStr i.natAbs else pyNatStr i.toNat

/-- Decode a least-significant-first digit list back to a number; used only to
prove `natDigitsRev` injective. -/
def decodeDigitsRev : List Char → Nat
  | [] => 0
  | c :: cs => (c.toNat - 48) + 10 * decodeDigitsRev cs

theorem toNat_digitChar (d : Nat) (h : d < 10) : (Char.ofNat (48 + d)).toNat = 48 + d := by
  interval_cases d <;> decide

theorem decodeDigitsRev_natDigitsRevFuel :
    ∀ fuel n, n ≤ fuel → decodeDigitsRev (natDigitsRevFuel fuel n) = n := by
  intro fuel
  induction fuel with
  | zero =>
    intro n hn
    simp only [Nat.le_zero] at hn
    simp [hn, natDigitsRevFuel, decodeDigitsRev]
  | succ fuel ih =>
    intro n hn
    by_cases h : n = 0
    · simp [h, natDigitsRevFuel, decodeDigitsRev]
    · rw [natDigitsRevFuel]
      simp only [h, if_false, decodeDigitsRev]
      rw [toNat_digitChar (n % 10) (Nat.mod_lt _ (by omega))]
      have hdiv : n / 10 ≤ fuel := by
        have := Nat.div_lt_self (Nat.pos_of_ne_zero h) (show 1 < 10 by omega)
        omega
      rw [ih (n / 10) hdiv]
      omega

theorem decodeDigitsRev_natDigitsRev (n : Nat) : decodeDigitsRev (natDigitsRev n) = n :=
  decodeDigitsRev_natDigitsRevFuel n n (Nat.le_refl n)

-- ==========================================================================
-- Python repr / str rendering of values, and ast.literal_eval
-- ==========================================================================

/-- Quote character Python `repr` picks for a string: a double quote when the
string contains a single quote but no double quote, else a single quote. -/
def quoteFor (cs : List Char) : Char :=
  if cs.contains '\'' && !(cs.contains '"') then '"' else '\''

/-- Escape backslashes and the chosen quote character, as Python `repr`
does (control-character escapes do not arise in this code base). -/
def escapeChars (q : Char) : List Char → List Char
  | [] => []
  | c :: cs =>
    if c = '\\' ∨ c = q then '\\' :: c :: escapeChars q cs else c :: escapeChars q cs

/-- Model of Python `repr` on a string, character-list level. -/
def pyReprStrChars (cs : List Char) : List Char :=
  quoteFor cs :: (escapeChars (quoteFor cs) cs ++ [quoteFor cs])

mutual

/-- Model of Python `repr` on a dynamic value, character-list level. -/
def pyReprValChars : PyVal → List Char
  | .str s => pyReprStrChars s.data
  | .int n => (pyIntStr n).data
  | .list xs => '[' :: (pyReprElemsChars xs ++ [']'])
  | .none => ['N', 'o', 'n', 'e']

/-- `repr` of list elements joined by a comma and a space. -/
def pyReprElemsChars : List PyVal → List Char
  | [] => []
  | [x] => pyReprValChars x
  | x :: y :: xs => pyReprValChars x ++ ',' :: ' ' :: pyReprElemsChars (y :: xs)

end

/-- Model of Python `repr` on a dynamic value. -/
def pyReprVal (v : PyVal) : String := String.mk (pyReprValChars v)

/-- Model of Python `str()` on a dynamic value: identity on strings, `repr`
rendering otherwise. -/
def pyStrVal : PyVal → String
  | .str s => s
  | v => pyReprVal v

/-- Drop leading spaces (whitespace tolerance of `ast.literal_eval`). -/
def skipSpaces (l : List Char) : List Char := l.dropWhile (fun c => c = ' ')

/-- Parse the body of a Python string literal quoted by `q`, returning the
decoded characters and the remainder after the closing quote. -/
def parseStrBody (q : Char) : List Char → Option (List Char × List Char)
  | [] => Option.none
  | c :: cs =>
    if c = q then some ([], cs)
    else if c = '\\' then
      match cs with
      | [] => Option.none
      | e :: cs2 =>
        let dec : List Char :=
          if e = 'n' then ['\n']
          else if e = 't' then ['\t']
          else if e = 'r' then ['\r']
          else if e = '\\' ∨ e = '\'' ∨ e = '"' then [e]
          else ['\\', e]
        (parseStrBody q cs2).map (fun p => (dec ++ p.1, p.2))
    else (parseStrBody q cs).map (fun p => (c :: p.1, p.2))

/-- Parse a decimal integer literal with optional sign. -/
def parseIntLit (l : List Char) : Option (Int × List Char) :=
  match l with
  | '-' :: rest =>
    let ds := rest.takeWhile (fun c => c.isDigit)
    let rest2 := rest.dropWhile (fun c => c.isDigit)
    if ds = [] then Option.none
    else some (-(Int.ofNat (ds.foldl (fun a c => a * 10 + (c.toNat - 48)) 0)), rest2)
  | _ =>
    let ds := l.takeWhile (fun c => c.isDigit)
    let rest2 := l.dropWhile (fun c => c.isDigit)
    if ds = [] then Option.none
    else some (Int.ofNat (ds.foldl (fun a c => a * 10 + (c.toNat - 48)) 0), rest2)

mutual

/-- Fuel-indexed parser for the fragment of Python literals this code base
stores (strings, integers, lists, `None`); model of `ast.literal_eval`. -/
def parseVal : Nat → List Char → Option (PyVal × List Char)
  | 0, _ => Option.none
  | _ + 1, [] => Option.none
  | fuel + 1, c :: cs =>
    if c = '\'' ∨ c = '"' then
      (parseStrBody c cs).map (fun p => (PyVal.str (String.mk p.1), p.2))
    else if c = '[' then
      match parseElems fuel (skipSpaces cs) with
      | some (vs, rest) => some (PyVal.list vs, rest)
      | Option.none => Option.none
    else if (c :: cs).take 4 = ['N', 'o', 'n', 'e'] then
      some (PyVal.none, cs.drop 3)
    else
      (parseIntLit (c :: cs)).map (fun p => (PyVal.int p.1, p.2))

/-- Parse the elements of a list literal up to and including the closing
bracket (tolerating a trailing comma, as Python does). -/
def parseElems : Nat → List Char → Option (List PyVal × List Char)
  | 0, _ => Option.none
  | fuel + 1, l =>
    match l with
    | [] => Option.none
    | c :: cs =>
      if c = ']' then some ([], cs)
      else
        match parseVal fuel (c :: cs) with
        | some (v, rest) =>
          match skipSpaces rest with
          | [] => Option.none
          | s :: rest2 =>
            if s = ',' then
              match parseElems fuel (skipSpaces rest2) with
              | some (vs, rest3) => some (v :: vs, rest3)
              | Option.none => Option.none
            else if s = ']' then some ([v], rest2)
            else Option.none
        | Option.none => Option.none

end

/-- Model of `ast.literal_eval`: parse the whole string as one literal;
any leftover input or parse failure yields `Option.none` (the Python builtin
raises, which every caller in the source catches). -/
def literalEval (s : String) : Option PyVal :=
  match parseVal (s.data.length + 1) (skipSpaces s.data) with
  | some (v, rest) => if skipSpaces rest = [] then some v else Option.none
  | Option.none => Option.none

theorem natDigitsRev_injective {m n : Nat} (h : natDigitsRev m = natDigitsRev n) : m = n := by
  have := decodeDigitsRev_natDigitsRev m
  rw [h, decodeDigitsRev_natDigitsRev] at this
  exact this.symm

theorem natDigitsRev_ne_nil {n : Nat} (h : n ≠ 0) : natDigitsRev n ≠ [] := by
  obtain ⟨m, rfl⟩ := Nat.exists_eq_succ_of_ne_zero h
  rw [natDigitsRev, natDigitsRevFuel]
  simp

theorem pyNatStr_injective {m n : Nat} (h : pyNatStr m = pyNatStr n) : m = n := by
  unfold pyNatStr at h
  by_cases hm : m = 0 <;> by_cases hn : n = 0
  · omega
  · exfalso
    simp only [hm, if_true, hn, if_false] at h
    have hd : ("0" : String).data = (String.mk (natDigitsRev n).reverse).data := by rw [h]
    have : (natDigitsRev n).reverse = ['0'] := by
      simpa using hd.symm
    have h1 : natDigitsRev n = ['0'] := by
      have := congrArg List.reverse this
      simpa using this
    have := decodeDigitsRev_natDigitsRev n
    rw [h1] at this
    simp [decodeDigitsRev] at this
    exact hn this.symm
  · exfalso
    simp only [hm, if_false, hn, if_true] at h
    have hd : (String.mk (natDigitsRev m).reverse).data = ("0" : String).data := by rw [h]
    have : (natDigitsRev m).reverse = ['0'] := by simpa using hd
    have h1 : natDigitsRev m = ['0'] := by
      have := congrArg List.reverse this
      simpa using this
    have := decodeDigitsRev_natDigitsRev m
    rw [h1] at this
    simp [decodeDigitsRev] at this
    exact hm this.symm
  · simp only [hm, if_false, hn, if_false] at h
    have hd := congrArg String.data h
    have : (natDigitsRev m).reverse = (natDigitsRev n).reverse := by simpa using hd
    exact natDigitsRev_injective (by simpa using congrArg List.reverse this)

-- ==========================================================================
-- repr / literal_eval round-trip lemmas
-- ==========================================================================

theorem strMkData (s : String) : String.mk s.data = s := by
  cases s
  rfl
theorem quoteFor_mem (cs : List Char) : quoteFor cs = '\'' ∨ quoteFor cs = '"' := by
  unfold quoteFor
  by_cases h : (cs.contains '\'' && !(cs.contains '"')) = true
  · rw [if_pos h]
    exact Or.inr rfl
  · rw [if_neg h]
    exact Or.inl rfl

theorem parseStrBody_escape {q : Char} (hq : q = '\'' ∨ q = '"') :
    ∀ (cs rest : List Char),
    parseStrBody q (escapeChars q cs ++ q :: rest) = some (cs, rest) := by
  have hbs : ¬(('\\' : Char) = q) := by rcases hq with h | h <;> subst h <;> decide
  intro cs
  induction cs with
  | nil =>
    intro rest
    rw [escapeChars, List.nil_append, parseStrBody.eq_def]
    dsimp only
    rw [if_pos rfl]
  | cons c cs ih =>
    intro rest
    rw [escapeChars]
    by_cases hc : c = '\\' ∨ c = q
    · rw [if_pos hc, List.cons_append, List.cons_append]
      have hdec : (if c = 'n' then ['\n']
          else if c = 't' then ['\t']
          else if c = 'r' then ['\r']
          else if c = '\\' ∨ c = '\'' ∨ c = '"' then [c]
          else ['\\', c]) = [c] := by
        rcases hc with h | h
        · subst h; rfl
        · subst h; rcases hq with h | h <;> subst h <;> rfl
      rw [parseStrBody.eq_def]
      dsimp only
      rw [if_neg hbs, if_pos rfl]
      rw [hdec, ih rest]
      rfl
    · have hc1 : ¬(c = '\\') := fun hx => hc (Or.inl hx)
      have hc2 : ¬(c = q) := fun hx => hc (Or.inr hx)
      rw [if_neg hc, List.cons_append, parseStrBody.eq_def]
      dsimp only
      rw [if_neg hc2, if_neg hc1, ih rest]
      rfl

theorem parseVal_reprStr (s : String) (rest : List Char) (fuel : Nat) :
    parseVal (fuel + 1) (pyReprStrChars s.data ++ rest) = some (PyVal.str s, rest) := by
  have hq := quoteFor_mem s.data
  rw [pyReprStrChars, List.cons_append, List.append_assoc, List.singleton_append]
  rw [parseVal, if_pos hq, parseStrBody_escape hq]
  rfl

theorem skipSpaces_cons {c : Char} (h : ¬(c = ' ')) (l : List Char) :
    skipSpaces (c :: l) = c :: l := by
  simp [skipSpaces, List.dropWhile_cons, h]

theorem skipSpaces_space (l : List Char) : skipSpaces (' ' :: l) = skipSpaces l := by
  simp [skipSpaces, List.dropWhile_cons]

theorem skipSpaces_reprStr (s : String) (tail : List Char) :
    skipSpaces (pyReprStrChars s.data ++ tail) = pyReprStrChars s.data ++ tail := by
  rw [pyReprStrChars, List.cons_append]
  refine skipSpaces_cons ?_ _
  rcases quoteFor_mem s.data with h | h <;> rw [h] <;> decide

theorem skipSpaces_strElems (y : String) (zs : List PyVal) (tail : List Char) :
    skipSpaces (pyReprElemsChars (PyVal.str y :: zs) ++ tail)
      = pyReprElemsChars (PyVal.str y :: zs) ++ tail := by
  cases zs with
  | nil =>
    rw [pyReprElemsChars, pyReprValChars]
    exact skipSpaces_reprStr y tail
  | cons z zs =>
    rw [pyReprElemsChars, pyReprValChars, List.append_assoc]
    rw [skipSpaces_reprStr y (',' :: ' ' :: pyReprElemsChars (z :: zs) ++ tail)]

theorem pyReprElems_strs_length (xs : List String) :
    xs.length ≤ (pyReprElemsChars (xs.map PyVal.str)).length := by
  induction xs with
  | nil => simp [pyReprElemsChars]
  | cons x xs ih =>
    cases xs with
    | nil => simp [pyReprElemsChars, pyReprValChars, pyReprStrChars]
    | cons y ys =>
      simp only [List.map_cons] at ih ⊢
      rw [pyReprElemsChars]
      simp only [List.length_append, List.length_cons] at ih ⊢
      omega

theorem parseElems_repr : ∀ (xs : List String) (fuel : Nat) (rest : List Char),
    xs.length + 1 ≤ fuel →
    parseElems fuel (pyReprElemsChars (xs.map PyVal.str) ++ ']' :: rest)
      = some (xs.map PyVal.str, rest) := by
  intro xs
  induction xs with
  | nil =>
    intro fuel rest h
    obtain ⟨f, rfl⟩ : ∃ f, fuel = f + 1 := ⟨fuel - 1, by omega⟩
    rw [List.map_nil, pyReprElemsChars, List.nil_append, parseElems]
    rw [if_pos rfl]
  | cons x xs ih =>
    intro fuel rest h
    obtain ⟨f, rfl⟩ : ∃ f, fuel = f + 1 := ⟨fuel - 1, by omega⟩
    have hf : 1 ≤ f := by
      simp only [List.length_cons] at h
      omega
    obtain ⟨f2, rfl⟩ : ∃ f2, f = f2 + 1 := ⟨f - 1, by omega⟩
    have hqne : ¬(quoteFor x.data = ']') := by
      rcases quoteFor_mem x.data with hx | hx <;> rw [hx] <;> decide
    cases xs with
    | nil =>
      rw [List.map_cons, List.map_nil, pyReprElemsChars, pyReprValChars]
      have hL : pyReprStrChars x.data ++ ']' :: rest
          = quoteFor x.data
            :: ((escapeChars (quoteFor x.data) x.data ++ [quoteFor x.data]) ++ ']' :: rest) := by
        rw [pyReprStrChars, List.cons_append]
      rw [hL, parseElems]
      rw [if_neg hqne, ← hL, parseVal_reprStr x (']' :: rest) f2]
      rfl
    | cons y ys =>
      rw [List.map_cons, List.map_cons, pyReprElemsChars, pyReprValChars]
      rw [List.append_assoc, List.cons_append, List.cons_append]
      have hL : pyReprStrChars x.data
            ++ (',' :: ' ' :: (pyReprElemsChars (PyVal.str y :: ys.map PyVal.str) ++ ']' :: rest))
          = quoteFor x.data
            :: ((escapeChars (quoteFor x.data) x.data ++ [quoteFor x.data])
              ++ (',' :: ' '
                :: (pyReprElemsChars (PyVal.str y :: ys.map PyVal.str) ++ ']' :: rest))) := by
        rw [pyReprStrChars, List.cons_append]
      rw [hL, parseElems]
      rw [if_neg hqne, ← hL]
      rw [parseVal_reprStr x
        (',' :: ' ' :: (pyReprElemsChars (PyVal.str y :: ys.map PyVal.str) ++ ']' :: rest)) f2]
      dsimp only
      rw [skipSpaces_cons (by decide : ¬((',' : Char) = ' '))]
      dsimp only
      rw [if_pos rfl]
      rw [skipSpaces_space, skipSpaces_strElems y (ys.map PyVal.str) (']' :: rest)]
      have hrec := ih (f2 + 1) rest (by
        simp only [List.length_cons] at h ⊢
        omega)
      rw [List.map_cons] at hrec
      rw [hrec]

theorem literalEval_repr_strList (xs : List String) :
    literalEval (pyReprVal (PyVal.list (xs.map PyVal.str)))
      = some (PyVal.list (xs.map PyVal.str)) := by
  have hlen := pyReprElems_strs_length xs
  have hskip : skipSpaces (pyReprElemsChars (xs.map PyVal.str) ++ [']'])
      = pyReprElemsChars (xs.map PyVal.str) ++ [']'] := by
    cases xs with
    | nil =>
      rw [List.map_nil, pyReprElemsChars, List.nil_append]
      exact skipSpaces_cons (by decide) []
    | cons x xs =>
      rw [List.map_cons]
      exact skipSpaces_strElems x (xs.map PyVal.str) [']']
  have hparse := parseElems_repr xs ((pyReprElemsChars (xs.map PyVal.str)).length + 2) []
    (by omega)
  unfold literalEval
  have hdata : (pyReprVal (PyVal.list (xs.map PyVal.str))).data
      = '[' :: (pyReprElemsChars (xs.map PyVal.str) ++ [']']) := by
    rw [pyReprVal, pyReprValChars]
  rw [hdata]
  rw [skipSpaces_cons (by decide : ¬(('[' : Char) = ' '))]
  simp only [List.length_cons, List.length_append, List.length_nil, List.length_singleton,
    Nat.zero_add]
  rw [parseVal]
  rw [if_neg (by decide : ¬(('[' : Char) = '\'' ∨ ('[' : Char) = '"')), if_pos rfl]
  rw [hskip, hparse]
  rfl

-- ==========================================================================
-- Dates (datetime.now / timedelta / strftime / weekday)
-- ==========================================================================

/-- A calendar date (proleptic Gregorian), as handled by `datetime.date`. -/
structure Date where
  year : Nat
  month : Nat
  day : Nat

/-- Days since 1970-01-01 (Howard Hinnant's civil-calendar algorithm); models
`datetime` subtraction and `timedelta` arithmetic. -/
def daysFromCivil (dt : Date) : Int :=
  let y : Int := (dt.year : Int) - (if dt.month ≤ 2 then 1 else 0)
  let era : Int := Int.fdiv y 400
  let yoe : Int := y - era * 400
  let mp : Nat := (dt.month + 9) % 12
  let doy : Nat := (153 * mp + 2) / 5 + dt.day - 1
  let doe : Int := yoe * 365 + yoe / 4 - yoe / 100 + (doy : Int)
  era * 146097 + doe - 719468

/-- Inverse of `daysFromCivil`; models adding a `timedelta` to a date. -/
def civilFromDays (z0 : Int) : Date :=
  let z := z0 + 719468
  let era : Int := Int.fdiv z 146097
  let doe : Nat := (z - era * 146097).toNat
  let yoe : Nat := (doe - doe / 1460 + doe / 36524 - doe / 146096) / 365
  let doy : Nat := doe - (365 * yoe + yoe / 4 - yoe / 100)
  let mp : Nat := (5 * doy + 2) / 153
  let d : Nat := doy - (153 * mp + 2) / 5 + 1
  let m : Nat := if mp < 10 then mp + 3 else mp - 9
  let y : Int := (yoe : Int) + era * 400 + (if m ≤ 2 then 1 else 0)
  { year := y.toNat, month := m, day := d }

/-- Python `.weekday()` on a day number: Monday is 0 (1970-01-01 was a
Thursday, weekday 3). -/
def pyWeekdayZ (z : Int) : Int := (z + 3) % 7

/-- Zero-padded two-digit rendering (strftime `%m` / `%d`). -/
def pad2 (n : Nat) : String := if n < 10 then "0" ++ pyNatStr n else pyNatStr n

/-- Zero-padded four-digit rendering (strftime `%Y`). -/
def pad4 (n : Nat) : String :=
  if n < 10 then "000" ++ pyNatStr n
  else if n < 100 then "00" ++ pyNatStr n
  else if n < 1000 then "0" ++ pyNatStr n
  else pyNatStr n

/-- Model of `strftime("%Y-%m-%d")`. -/
def formatDate (d : Date) : String := pad4 d.year ++ "-" ++ pad2 d.month ++ "-" ++ pad2 d.day

/-- Python `<` on strings: lexicographic comparison of code points. -/
def lexLt : List Char → List Char → Bool
  | [], [] => false
  | [], _ :: _ => true
  | _ :: _, [] => false
  | a :: as, b :: bs =>
    if a.toNat < b.toNat then true
    else if b.toNat < a.toNat then false
    else lexLt as bs

/-- Python string `<`. -/
def pyStrLt (a b : String) : Bool := lexLt a.data b.data

/-- Python string `<=`. -/
def pyStrLe (a b : String) : Bool := pyStrLt a b || a == b

-- ==========================================================================
-- Entity model: Task (dataclass with __post_init__ validation/sanitization)
-- ==========================================================================

namespace Flow

/-- The `Task` dataclass after construction.  `attachments` and
`collaborators` are dynamically typed in the source (list normally, but the
collaborators parse can leave a non-list behind), hence `PyVal`. -/
structure Task where
  title : String
  responsible : String
  category : String
  priority : String
  status : String
  due_date : String
  description : String
  attachments : PyVal
  collaborators : PyVal
  manager_feedback : String
  id : Int
  created_at : String

/-- The `due_date` argument of the constructor: a `datetime`/`date` object or
an already-formatted string. -/
inductive DueInput where
  | date (d : Date)
  | str (s : String)

/-- `clean_val` applied to an arbitrary list element: falsy values give
`""`, anything else is rendered with `str()` and cleaned. -/
def cleanValPy : PyVal → String
  | .str s => cleanVal s
  | .int n => if n = 0 then "" else cleanVal (pyIntStr n)
  | .list xs =>
    match xs with
    | [] => ""
    | _ => cleanVal (pyReprVal (.list xs))
  | .none => ""

/-- The collaborators sanitization step of `__post_init__`: applied only when
the value is a non-empty list; keeps the cleaned form of each element whose
cleaned form is non-empty. -/
def sanitizeCollabs : PyVal → PyVal
  | .list xs =>
    match xs with
    | [] => .list []
    | _ => .list ((xs.filterMap (fun c =>
        let s := cleanValPy c
        if s = "" then Option.none else some s)).map PyVal.str)
  | v => v

/-- Model of `Task(...)` construction including `__post_init__`:
`Option.none` models the `ValueError` raised when the supplied title is empty
or whitespace-only; otherwise the due date is normalized, a string-valued
collaborators field is parsed with `ast.literal_eval` (malformed strings
degrade to `[]`), and title and collaborators are sanitized. -/
def constructTask (title responsible category priority status : String)
    (due : DueInput) (description : String) (attachments collaborators : PyVal)
    (manager_feedback : String) (id : Int) (created_at : String) : Option Task :=
  if pyStrip title = "" then Option.none
  else
    let due_date := match due with
      | .date d => formatDate d
      | .str s => s
    let collabs0 := match collaborators with
      | PyVal.none => PyVal.list []
      | v => v
    let collabs1 := match collabs0 with
      | PyVal.str s => if s = "" then PyVal.list [] else (literalEval s).getD (PyVal.list [])
      | v => v
    some {
      title := cleanVal title
      responsible := responsible
      category := category
      priority := priority
      status := status
      due_date := due_date
      description := description
      attachments := attachments
      collaborators := sanitizeCollabs collabs1
      manager_feedback := manager_feedback
      id := id
      created_at := created_at }


-- ==========================================================================
-- Serialization: to_dict / from_dict and the spreadsheet row shape
-- ==========================================================================

/-- A Python dict as stored in the JSON files / worksheet rows: an
association list preserving insertion order. -/
abbrev TaskDict := List (String × PyVal)

/-- `dict.get(key, default)`. -/
def pyGet (d : TaskDict) (k : String) (dflt : PyVal) : PyVal :=
  (List.lookup k d).getD dflt

/-- `dict.get(key, default)` at a key whose value is a string in every store
this development models. -/
def pyGetStr (d : TaskDict) (k : String) (dflt : String) : String :=
  match List.lookup k d with
  | some (PyVal.str s) => s
  | some _ => dflt
  | Option.none => dflt

/-- `dict.get(key, default)` at a key whose value is an integer in every
store this development models. -/
def pyGetInt (d : TaskDict) (k : String) (dflt : Int) : Int :=
  match List.lookup k d with
  | some (PyVal.int n) => n
  | some _ => dflt
  | Option.none => dflt

/-- `Task.to_dict`: `asdict` in field order, `due_date` and `created_at`
popped and re-inserted at the end under `dueDate` / `createdAt`, and a
list-valued collaborators field rendered with `str()` for the Sheets cell. -/
def Task.toDict (t : Task) : TaskDict :=
  [("title", PyVal.str t.title), ("responsible", PyVal.str t.responsible),
   ("category", PyVal.str t.category), ("priority", PyVal.str t.priority),
   ("status", PyVal.str t.status), ("description", PyVal.str t.description),
   ("attachments", t.attachments),
   ("collaborators", match t.collaborators with
     | PyVal.list xs => PyVal.str (pyReprVal (PyVal.list xs))
     | v => v),
   ("manager_feedback", PyVal.str t.manager_feedback), ("id", PyVal.int t.id),
   ("dueDate", PyVal.str t.due_date), ("createdAt", PyVal.str t.created_at)]

/-- `Task.from_dict`: read each field with its default (`nowStr` and `nowId`
stand for the `datetime.now()` / `time.time()` defaults), pre-parse a
string-valued collaborators field, then construct (re-running
`__post_init__`). -/
def Task.fromDict (nowStr : String) (nowId : Int) (data : TaskDict) : Option Task :=
  let collabs0 := pyGet data ("collaborators") (PyVal.list [])
  let collabs := match collabs0 with
    | PyVal.str s => if s = "" then PyVal.list [] else (literalEval s).getD (PyVal.list [])
    | v => v
  constructTask (pyGetStr data ("title") (""))
    (pyGetStr data ("responsible") ("Maicon"))
    (pyGetStr data ("category") ("Outros"))
    (pyGetStr data ("priority") ("Média"))
    (pyGetStr data ("status") ("Pendente"))
    (DueInput.str (pyGetStr data ("dueDate") nowStr))
    (pyGetStr data ("description") (""))
    (pyGet data ("attachments") (PyVal.list []))
    collabs
    (pyGetStr data ("manager_feedback") (""))
    (pyGetInt data ("id") nowId)
    (pyGetStr data ("createdAt") nowStr)

/-- Replace the value stored at a key. -/
def replaceKey (k : String) (v : PyVal) (d : TaskDict) : TaskDict :=
  d.map (fun kv => if kv.1 = k then (kv.1, v) else kv)

/-- The per-row formatting of `DataManager.save_tasks` (Sheets branch): after
`to_dict`, the attachments value is additionally rendered with `str()`. -/
def sheetEncodeRow (t : Task) : TaskDict :=
  (Task.toDict t).map
    (fun kv => if kv.1 = "attachments" then (kv.1, PyVal.str (pyStrVal kv.2)) else kv)

/-- The per-row reconstruction of `DataManager.load_tasks` (Sheets branch): a
string-valued attachments cell is parsed back with `eval` (malformed cells
degrade to `[]`), rows lacking an `id` are skipped, and the record is rebuilt
with `Task.from_dict`. -/
def sheetDecodeRow (nowStr : String) (nowId : Int) (r : TaskDict) : Option Task :=
  let r2 := match List.lookup ("attachments") r with
    | some (PyVal.str s) => replaceKey ("attachments") ((literalEval s).getD (PyVal.list [])) r
    | _ => r
  if (List.lookup ("id") r2).isSome then Task.fromDict nowStr nowId r2 else Option.none

/-- Encode a task to its spreadsheet row and decode the row back. -/
def sheetRoundTrip (nowStr : String) (nowId : Int) (t : Task) : Option Task :=
  sheetDecodeRow nowStr nowId (sheetEncodeRow t)

-- ==========================================================================
-- Persistence: local task store (non-manager identity)
-- ==========================================================================

/-- The tasks JSON file for one identity: `Option.none` models a missing
file, `some recs` the parsed array of record dicts. -/
abbrev TaskStore := Option (List TaskDict)

/-- `DataManager.save_tasks` (local branch): serialize every task with
`to_dict` and overwrite the whole file. -/
def saveTasksLocal (tasks : List Task) : TaskStore :=
  some (tasks.map Task.toDict)

/-- `DataManager._create_initial_data`: the single seeded example task
(`baseId` stands for the creation-time epoch milliseconds). -/
def initialTasks (nowStr : String) (baseId : Int) : List Task :=
  match constructTask ("Exemplo de Tarefa") ("Maicon") ("Outros") ("Média") ("Pendente")
      (DueInput.str nowStr) ("") (PyVal.list []) (PyVal.list []) ("") baseId nowStr with
  | some t => [t]
  | Option.none => []

/-- The list comprehension `[Task.from_dict(item) for item in data]`: records
are decoded left to right, and the first record whose reconstruction raises
aborts the whole comprehension. -/
def decodeAll (f : TaskDict → Option Task) : List TaskDict → Option (List Task)
  | [] => some []
  | r :: rs =>
    match f r with
    | some t => (decodeAll f rs).map (fun ts => t :: ts)
    | Option.none => Option.none

/-- `DataManager.load_tasks` (local branch, ordinary identity): a missing
file seeds and persists the initial data; otherwise every record is rebuilt
with `Task.from_dict`, and any exception while rebuilding makes the whole
load return `[]` (the `except` branch).  Returns the loaded tasks together
with the resulting store. -/
def loadTasksLocalUser (nowStr : String) (baseId : Int) (store : TaskStore) :
    List Task × TaskStore :=
  match store with
  | Option.none =>
    let seed := initialTasks nowStr baseId
    (seed, saveTasksLocal seed)
  | some recs =>
    match decodeAll (Task.fromDict nowStr baseId) recs with
    | some tasks => (tasks, some recs)
    | Option.none => ([], some recs)

-- ==========================================================================
-- Entity model and persistence: TaskUpdate
-- ==========================================================================

/-- The `TaskUpdate` dataclass. -/
structure TaskUpdate where
  task_id : Int
  content : String
  timestamp : String
  user : String
  id : Int
deriving DecidableEq

/-- A stored update record: all dataclass fields present except that legacy
records may lack the `id` key. -/
structure UpdateRecord where
  task_id : Int
  content : String
  timestamp : String
  user : String
  id : Option Int
deriving DecidableEq

/-- The f-string `f"{task_id}_{timestamp}_{content[:20]}_{index}"` hashed by
`TaskUpdate.from_dict` for records lacking an id. -/
def uniqueStr (task_id : Int) (timestamp content : String) (index : Nat) : String :=
  pyIntStr task_id ++ "_" ++ timestamp ++ "_" ++ content.take 20 ++ "_" ++ pyNatStr index

/-- `TaskUpdate.from_dict`: a record with an `id` is taken as is; a record
without one gets `hash(unique_str) & 0x7FFFFFFF`, i.e. the hash value reduced
modulo `2^31`.  `hashF` stands for the Python string `hash` builtin, which is
deterministic within one process but seeded per process. -/
def TaskUpdate.fromDict (hashF : String → Int) (data : UpdateRecord) (index : Nat) :
    TaskUpdate :=
  match data.id with
  | some v =>
    { task_id := data.task_id, content := data.content, timestamp := data.timestamp,
      user := data.user, id := v }
  | Option.none =>
    { task_id := data.task_id, content := data.content, timestamp := data.timestamp,
      user := data.user,
      id := (hashF (uniqueStr data.task_id data.timestamp data.content index)).emod (2 ^ 31) }

/-- `TaskUpdate.to_dict` (`asdict`). -/
def TaskUpdate.toRecord (u : TaskUpdate) : UpdateRecord :=
  { task_id := u.task_id, content := u.content, timestamp := u.timestamp,
    user := u.user, id := some u.id }

/-- The updates JSON file: `Option.none` models a missing file. -/
abbrev UpdateStore := Option (List UpdateRecord)

/-- `DataManager.load_updates` (local branch): a missing or unreadable file
gives `[]`; otherwise each record is rebuilt with its ordinal index. -/
def loadUpdates (hashF : String → Int) (store : UpdateStore) : List TaskUpdate :=
  match store with
  | Option.none => []
  | some recs => recs.enum.map (fun p => TaskUpdate.fromDict hashF p.2 p.1)

/-- `DataManager.save_updates` (local branch): overwrite the whole file. -/
def saveUpdates (updates : List TaskUpdate) : UpdateStore :=
  some (updates.map TaskUpdate.toRecord)

/-- `DataManager.get_task_updates`: load everything, filter by `task_id`. -/
def getTaskUpdates (hashF : String → Int) (task_id : Int) (store : UpdateStore) :
    List TaskUpdate :=
  (loadUpdates hashF store).filter (fun u => u.task_id == task_id)

/-- `DataManager.delete_update`: load everything, drop the updates whose id
equals `update_id`, save the rest. -/
def deleteUpdate (hashF : String → Int) (update_id : Int) (store : UpdateStore) :
    UpdateStore :=
  saveUpdates ((loadUpdates hashF store).filter (fun u => u.id != update_id))

-- ==========================================================================
-- Query helpers: calculate_stats and is_urgent_today
-- ==========================================================================

/-- The dict returned by `DashboardView.calculate_stats`. -/
structure Stats where
  total : Nat
  completed : Nat
  in_progress : Nat
  urgent : Nat
  overdue : Nat
  this_week : Nat

/-- `DashboardView.calculate_stats`, with `today` standing for
`datetime.now()`: the week window runs from `today - timedelta(today.weekday())`
to six days later, and all date comparisons are string comparisons on the
`YYYY-MM-DD` renderings. -/
def calculate_stats (today : Date) (tasks : List Task) : Stats :=
  let todayStr := formatDate today
  let z := daysFromCivil today
  let weekStartStr := formatDate (civilFromDays (z - pyWeekdayZ z))
  let weekEndStr := formatDate (civilFromDays (z - pyWeekdayZ z + 6))
  { total := tasks.length
    completed := (tasks.filter (fun t => t.status == "Concluído")).length
    in_progress := (tasks.filter (fun t => t.status == "Em Andamento")).length
    urgent := (tasks.filter (fun t => t.priority == "Alta" || t.priority == "Urgente")).length
    overdue := (tasks.filter (fun t =>
      pyStrLt t.due_date todayStr && !(t.status == "Concluído"))).length
    this_week := (tasks.filter (fun t =>
      pyStrLe weekStartStr t.due_date && pyStrLe t.due_date weekEndStr)).length }

/-- `Task.is_urgent_today`, with `today` standing for `datetime.now()`. -/
def Task.is_urgent_today (t : Task) (today : Date) : Bool :=
  t.priority == "Urgente" && !(t.status == "Concluído") && t.due_date == formatDate today


-- ==========================================================================
-- Fixture data
-- ==========================================================================

/-- A concrete "today" for the fixture evaluations: 2025-03-12, a Wednesday. -/
def fixtureToday : Date := { year := 2025, month := 3, day := 12 }

/-- Five tasks of which exactly two have status `Concluído`. -/
def fixtureTasks : List Task :=
  [{ title := "T1", responsible := "Maicon", category := "Outros", priority := "Alta",
     status := "Concluído", due_date := "2025-03-10", description := "",
     attachments := PyVal.list [], collaborators := PyVal.list [],
     manager_feedback := "", id := 1, created_at := "2025-03-01" },
   { title := "T2", responsible := "Maicon", category := "Outros", priority := "Média",
     status := "Concluído", due_date := "2025-02-01", description := "",
     attachments := PyVal.list [], collaborators := PyVal.list [],
     manager_feedback := "", id := 2, created_at := "2025-03-01" },
   { title := "T3", responsible := "Maicon", category := "Outros", priority := "Urgente",
     status := "Pendente", due_date := "2025-03-11", description := "",
     attachments := PyVal.list [], collaborators := PyVal.list [],
     manager_feedback := "", id := 3, created_at := "2025-03-01" },
   { title := "T4", responsible := "Maicon", category := "Outros", priority := "Baixa",
     status := "Em Andamento", due_date := "2025-03-14", description := "",
     attachments := PyVal.list [], collaborators := PyVal.list [],
     manager_feedback := "", id := 4, created_at := "2025-03-01" },
   { title := "T5", responsible := "Maicon", category := "Outros", priority := "Alta",
     status := "Para Revisão", due_date := "2025-04-01", description := "",
     attachments := PyVal.list [], collaborators := PyVal.list [],
     manager_feedback := "", id := 5, created_at := "2025-03-01" }]

-- ==========================================================================
-- Claim theorems
-- ==========================================================================

/-- C1.  `calculate_stats` returns exactly the six documented bucket counts:
`total` is the number of tasks, `completed` counts status `Concluído`,
`in_progress` counts status `Em Andamento`, `urgent` counts priority in
`Alta`/`Urgente`, `overdue` counts tasks whose due-date string is
lexicographically below today's `YYYY-MM-DD` rendering with status other than
`Concluído`, and `this_week` counts tasks whose due date lies between the
rendering of the Monday and of the Sunday of the week containing today,
inclusive and with no status restriction (the window bounds really are that
Monday and that Sunday: their weekdays are 0 and 6 and they enclose today).
On the five-task fixture with exactly two `Concluído` tasks, `completed` is
`2`. -/
theorem c1_calculate_stats_buckets (today : Date) (tasks : List Task) :
    (calculate_stats today tasks).total = tasks.length
    ∧ (calculate_stats today tasks).completed
        = tasks.countP (fun t => t.status == "Concluído")
    ∧ (calculate_stats today tasks).in_progress
        = tasks.countP (fun t => t.status == "Em Andamento")
    ∧ (calculate_stats today tasks).urgent
        = tasks.countP (fun t => t.priority == "Alta" || t.priority == "Urgente")
    ∧ (calculate_stats today tasks).overdue
        = tasks.countP (fun t =>
            pyStrLt t.due_date (formatDate today) && !(t.status == "Concluído"))
    ∧ (calculate_stats today tasks).this_week
        = tasks.countP (fun t =>
            pyStrLe (formatDate (civilFromDays
                (daysFromCivil today - pyWeekdayZ (daysFromCivil today)))) t.due_date
            && pyStrLe t.due_date (formatDate (civilFromDays
                (daysFromCivil today - pyWeekdayZ (daysFromCivil today) + 6))))
    ∧ pyWeekdayZ (daysFromCivil today - pyWeekdayZ (daysFromCivil today)) = 0
    ∧ pyWeekdayZ (daysFromCivil today - pyWeekdayZ (daysFromCivil today) + 6) = 6
    ∧ daysFromCivil today - pyWeekdayZ (daysFromCivil today) ≤ daysFromCivil today
    ∧ daysFromCivil today
        ≤ daysFromCivil today - pyWeekdayZ (daysFromCivil today) + 6
    ∧ (calculate_stats fixtureToday fixtureTasks).completed = 2
    ∧ fixtureTasks.length = 5
    ∧ fixtureTasks.countP (fun t => t.status == "Concluído") = 2 := by
  refine ⟨rfl, ?_, ?_, ?_, ?_, ?_, ?_, ?_, ?_, ?_, by decide, by decide, by decide⟩
  · exact (List.countP_eq_length_filter _ _).symm
  · exact (List.countP_eq_length_filter _ _).symm
  · exact (List.countP_eq_length_filter _ _).symm
  · exact (List.countP_eq_length_filter _ _).symm
  · exact (List.countP_eq_length_filter _ _).symm
  · unfold pyWeekdayZ
    omega
  · unfold pyWeekdayZ
    omega
  · unfold pyWeekdayZ
    omega
  · unfold pyWeekdayZ
    omega

/-- C5.  `is_urgent_today` is true exactly when the priority is `Urgente`,
the status is not `Concluído`, and the due date equals today's `YYYY-MM-DD`
rendering; so it is false for every task that differs in any one of the
three conditions. -/
theorem c5_is_urgent_today_iff (t : Task) (today : Date) :
    t.is_urgent_today today = true
      ↔ (t.priority = "Urgente" ∧ t.status ≠ "Concluído"
          ∧ t.due_date = formatDate today) := by
  simp [Task.is_urgent_today, and_assoc]

/-- C7.  After any successful save (so the store exists), saving the empty
task collection and loading again returns the empty collection, not the
seeded single-example collection that only a missing store triggers. -/
theorem c7_save_empty_then_load (prior : List Task) (nowStr : String) (baseId : Int) :
    saveTasksLocal prior ≠ (Option.none : TaskStore)
    ∧ (loadTasksLocalUser nowStr baseId (saveTasksLocal [])).1 = []
    ∧ initialTasks nowStr baseId ≠ []
    ∧ (loadTasksLocalUser nowStr baseId (saveTasksLocal [])).1
        ≠ initialTasks nowStr baseId := by
  have hseed : initialTasks nowStr baseId
      = [{ title := cleanVal ("Exemplo de Tarefa"), responsible := "Maicon",
           category := "Outros", priority := "Média", status := "Pendente",
           due_date := nowStr, description := "", attachments := PyVal.list [],
           collaborators := PyVal.list [], manager_feedback := "", id := baseId,
           created_at := nowStr }] := rfl
  refine ⟨by simp [saveTasksLocal], rfl, ?_, ?_⟩
  · rw [hseed]
    simp
  · rw [hseed, show (loadTasksLocalUser nowStr baseId (saveTasksLocal [])).1 = [] from rfl]
    simp

/-- C10.  In local-file mode for a non-manager identity, if the store parses
as an array but any single record fails `Task` reconstruction, the whole load
returns `[]`: every other record is dropped along with the bad one. -/
theorem c10_bad_record_drops_all (nowStr : String) (baseId : Int)
    (recs : List TaskDict) (r : TaskDict) (hr : r ∈ recs)
    (hbad : Task.fromDict nowStr baseId r = Option.none) :
    (loadTasksLocalUser nowStr baseId (some recs)).1 = [] := by
  have hdec : decodeAll (Task.fromDict nowStr baseId) recs = Option.none := by
    induction recs with
    | nil => simp at hr
    | cons x xs ih =>
      rcases List.mem_cons.mp hr with rfl | hx
      · rw [decodeAll, hbad]
      · rw [decodeAll]
        cases hfx : Task.fromDict nowStr baseId x with
        | none => rfl
        | some t => rw [ih hx]; rfl
  rw [loadTasksLocalUser, hdec]

/-- C10 witness: a store holding one decodable record and one record whose
title is whitespace-only loads as the empty list. -/
theorem c10_bad_record_drops_all_witness :
    (loadTasksLocalUser ("2025-03-12") 1 (some
      [[("title", PyVal.str ("Boa")), ("id", PyVal.int 1)],
       [("title", PyVal.str ("  ")), ("id", PyVal.int 2)]])).1 = [] :=
  c10_bad_record_drops_all ("2025-03-12") 1 _
    [("title", PyVal.str ("  ")), ("id", PyVal.int 2)]
    (List.mem_cons_of_mem _ (List.mem_cons_self _ _)) rfl


/-- C4 counterexample: a title consisting only of HTML tags passes the
emptiness validation (which runs before sanitization) and yields a
successfully constructed task whose title is empty after trimming —
contradicting the claim that every constructed task has a non-empty trimmed
title. -/
theorem c4_tag_only_title_counterexample :
    ∃ t : Task,
      constructTask ("<b></b>") ("Maicon") ("Outros") ("Alta") ("Pendente")
        (DueInput.str ("2025-03-12")) ("") (PyVal.list []) (PyVal.list [])
        ("") 1 ("2025-03-12") = some t
      ∧ t.title = "" ∧ pyStrip t.title = "" := by
  refine ⟨Task.mk ("") ("Maicon") ("Outros") ("Alta") ("Pendente") ("2025-03-12")
    ("") (PyVal.list []) (PyVal.list []) ("") 1 ("2025-03-12"), ?_, rfl, rfl⟩
  rfl

/-- C4 amended.  Construction fails exactly when the *supplied* title is
empty or whitespace-only; when it succeeds, the stored title is the
sanitized input, which can itself be empty when the input consists only of
tags or escaped entities, because validation runs before sanitization. -/
theorem c4_title_validation_amended (title responsible category priority status : String)
    (due : DueInput) (description : String) (attachments collaborators : PyVal)
    (manager_feedback : String) (id : Int) (created_at : String) :
    (constructTask title responsible category priority status due description
        attachments collaborators manager_feedback id created_at = Option.none
      ↔ pyStrip title = "")
    ∧ (∀ t, constructTask title responsible category priority status due description
        attachments collaborators manager_feedback id created_at = some t →
        t.title = cleanVal title) := by
  constructor
  · by_cases h : pyStrip title = ""
    · simp [constructTask, h]
    · simp [constructTask, h]
  · intro t ht
    by_cases h : pyStrip title = ""
    · simp [constructTask, h] at ht
    · rw [constructTask.eq_def, if_neg h] at ht
      have := (Option.some.injEq _ _).mp ht
      rw [← this]

/-- C4 witness: the whitespace-only title `"  "` is rejected, and the
tag-wrapped title `"<i>Pagar</i>"` constructs a task whose stored title is
its sanitized form. -/
theorem c4_title_validation_witness :
    constructTask ("  ") ("Maicon") ("Outros") ("Alta") ("Pendente")
      (DueInput.str ("2025-03-12")) ("") (PyVal.list []) (PyVal.list [])
      ("") 1 ("2025-03-12") = Option.none
    ∧ ∀ t, constructTask ("<i>Pagar</i>") ("Maicon") ("Outros") ("Alta") ("Pendente")
        (DueInput.str ("2025-03-12")) ("") (PyVal.list []) (PyVal.list [])
        ("") 1 ("2025-03-12") = some t → t.title = cleanVal ("<i>Pagar</i>") :=
  ⟨(c4_title_validation_amended ("  ") ("Maicon") ("Outros") ("Alta") ("Pendente")
      (DueInput.str ("2025-03-12")) ("") (PyVal.list []) (PyVal.list [])
      ("") 1 ("2025-03-12")).1.mpr (by decide),
   (c4_title_validation_amended ("<i>Pagar</i>") ("Maicon") ("Outros") ("Alta") ("Pendente")
      (DueInput.str ("2025-03-12")) ("") (PyVal.list []) (PyVal.list [])
      ("") 1 ("2025-03-12")).2⟩

/-- C8 counterexample: the malformed collaborators string `"42"` (not a
stringified list) does not degrade to the empty list — `ast.literal_eval`
parses it as the integer `42`, which is stored as the collaborators value. -/
theorem c8_nonlist_parse_counterexample :
    ∃ t : Task,
      constructTask ("Tarefa") ("Maicon") ("Outros") ("Alta") ("Pendente")
        (DueInput.str ("2025-03-12")) ("") (PyVal.list []) (PyVal.str ("42"))
        ("") 1 ("2025-03-12") = some t
      ∧ t.collaborators = PyVal.int 42
      ∧ t.collaborators ≠ PyVal.list [] := by
  refine ⟨Task.mk ("Tarefa") ("Maicon") ("Outros") ("Alta") ("Pendente") ("2025-03-12")
    ("") (PyVal.list []) (PyVal.int 42) ("") 1 ("2025-03-12"),
    rfl, rfl, PyVal.ne_of_beq_false rfl⟩

/-- C8 amended.  Construction accepts an already-parsed list (sanitizing it)
as well as a string: the empty string and every string that fails to parse
as a Python literal degrade to the empty list without raising, while a
string parsing to a non-list literal is stored as that parsed value. -/
theorem c8_collaborators_amended (title responsible category priority status : String)
    (due : DueInput) (description : String) (attachments : PyVal)
    (manager_feedback : String) (id : Int) (created_at : String)
    (htitle : ¬(pyStrip title = "")) :
    (∀ xs : List PyVal, ∃ t,
      constructTask title responsible category priority status due description
        attachments (PyVal.list xs) manager_feedback id created_at = some t
      ∧ t.collaborators = sanitizeCollabs (PyVal.list xs))
    ∧ (∀ s : String, literalEval s = Option.none → ∃ t,
      constructTask title responsible category priority status due description
        attachments (PyVal.str s) manager_feedback id created_at = some t
      ∧ t.collaborators = PyVal.list [])
    ∧ (∃ t, constructTask title responsible category priority status due description
        attachments (PyVal.str ("")) manager_feedback id created_at = some t
      ∧ t.collaborators = PyVal.list [])
    ∧ (∀ (s : String) (v : PyVal), literalEval s = some v → ¬(s = "") → ∃ t,
      constructTask title responsible category priority status due description
        attachments (PyVal.str s) manager_feedback id created_at = some t
      ∧ t.collaborators = sanitizeCollabs v) := by
  refine ⟨?_, ?_, ?_, ?_⟩
  · intro xs
    exact ⟨_, by rw [constructTask.eq_def, if_neg htitle], rfl⟩
  · intro s hs
    refine ⟨_, by rw [constructTask.eq_def, if_neg htitle], ?_⟩
    by_cases h0 : s = ""
    · simp [h0, sanitizeCollabs]
    · simp [h0, hs, sanitizeCollabs]
  · exact ⟨_, by rw [constructTask.eq_def, if_neg htitle], by simp [sanitizeCollabs]⟩
  · intro s v hs h0
    refine ⟨_, by rw [constructTask.eq_def, if_neg htitle], ?_⟩
    simp [h0, hs]

/-- C8 witness: with a valid title, the unparseable string `"oops"` degrades
to the empty collaborators list, and the empty string does too. -/
theorem c8_collaborators_witness :
    (∃ t, constructTask ("Tarefa") ("Maicon") ("Outros") ("Alta") ("Pendente")
        (DueInput.str ("2025-03-12")) ("") (PyVal.list []) (PyVal.str ("oops"))
        ("") 1 ("2025-03-12") = some t ∧ t.collaborators = PyVal.list [])
    ∧ (∃ t, constructTask ("Tarefa") ("Maicon") ("Outros") ("Alta") ("Pendente")
        (DueInput.str ("2025-03-12")) ("") (PyVal.list []) (PyVal.str (""))
        ("") 1 ("2025-03-12") = some t ∧ t.collaborators = PyVal.list []) :=
  ⟨(c8_collaborators_amended ("Tarefa") ("Maicon") ("Outros") ("Alta") ("Pendente")
      (DueInput.str ("2025-03-12")) ("") (PyVal.list []) ("") 1 ("2025-03-12")
      (by decide)).2.1 ("oops") (by rfl),
   (c8_collaborators_amended ("Tarefa") ("Maicon") ("Outros") ("Alta") ("Pendente")
      (DueInput.str ("2025-03-12")) ("") (PyVal.list []) ("") 1 ("2025-03-12")
      (by decide)).2.2.1⟩


/-- Is the dynamic value a list? -/
def PyVal.isList : PyVal → Bool
  | .list _ => true
  | _ => false

/-- C3 counterexample: for a task whose collaborators list is `["Ana"]`,
`to_dict` stores the collaborators under a *stringified* rendering, not a
native list — refuting the claim that every list-valued field remains a
native list in the encoded mapping. -/
theorem c3_collaborators_stringified_counterexample :
    List.lookup ("collaborators")
        (Task.toDict (Task.mk ("Tarefa") ("Maicon") ("Outros") ("Alta") ("Pendente")
          ("2025-03-12") ("") (PyVal.list []) (PyVal.list [PyVal.str ("Ana")]) ("") 1
          ("2025-03-12")))
      = some (PyVal.str (pyReprVal (PyVal.list [PyVal.str ("Ana")])))
    ∧ PyVal.isList (pyGet
        (Task.toDict (Task.mk ("Tarefa") ("Maicon") ("Outros") ("Alta") ("Pendente")
          ("2025-03-12") ("") (PyVal.list []) (PyVal.list [PyVal.str ("Ana")]) ("") 1
          ("2025-03-12"))) ("collaborators") PyVal.none) = false :=
  ⟨rfl, rfl⟩

/-- C3 amended.  `to_dict` maps every dataclass field to a key of the same
name except exactly the two renames `due_date` → `dueDate` and `created_at`
→ `createdAt`; the attachments value is kept as is (so a list stays a native
list), but a list-valued collaborators field is rendered as the stringified
representation of the list. -/
theorem c3_toDict_shape_amended (t : Task) (xs : List PyVal)
    (h : t.collaborators = PyVal.list xs) :
    (Task.toDict t).map Prod.fst
      = ["title", "responsible", "category", "priority", "status", "description",
         "attachments", "collaborators", "manager_feedback", "id", "dueDate", "createdAt"]
    ∧ List.lookup ("title") (Task.toDict t) = some (PyVal.str t.title)
    ∧ List.lookup ("responsible") (Task.toDict t) = some (PyVal.str t.responsible)
    ∧ List.lookup ("category") (Task.toDict t) = some (PyVal.str t.category)
    ∧ List.lookup ("priority") (Task.toDict t) = some (PyVal.str t.priority)
    ∧ List.lookup ("status") (Task.toDict t) = some (PyVal.str t.status)
    ∧ List.lookup ("description") (Task.toDict t) = some (PyVal.str t.description)
    ∧ List.lookup ("attachments") (Task.toDict t) = some t.attachments
    ∧ List.lookup ("manager_feedback") (Task.toDict t)
        = some (PyVal.str t.manager_feedback)
    ∧ List.lookup ("id") (Task.toDict t) = some (PyVal.int t.id)
    ∧ List.lookup ("dueDate") (Task.toDict t) = some (PyVal.str t.due_date)
    ∧ List.lookup ("createdAt") (Task.toDict t) = some (PyVal.str t.created_at)
    ∧ List.lookup ("due_date") (Task.toDict t) = Option.none
    ∧ List.lookup ("created_at") (Task.toDict t) = Option.none
    ∧ List.lookup ("collaborators") (Task.toDict t)
        = some (PyVal.str (pyReprVal (PyVal.list xs))) := by
  simp [Task.toDict, List.lookup, h]

/-- C3 witness: the key list and the stringified collaborators value on a
concrete task. -/
theorem c3_toDict_shape_witness :
    (Task.toDict (Task.mk ("T") ("M") ("O") ("Alta") ("Pendente") ("2025-03-12")
        ("") (PyVal.list []) (PyVal.list [PyVal.str ("Bea")]) ("") 1
        ("2025-03-12"))).map Prod.fst
      = ["title", "responsible", "category", "priority", "status", "description",
         "attachments", "collaborators", "manager_feedback", "id", "dueDate", "createdAt"]
    ∧ List.lookup ("collaborators")
        (Task.toDict (Task.mk ("T") ("M") ("O") ("Alta") ("Pendente") ("2025-03-12")
          ("") (PyVal.list []) (PyVal.list [PyVal.str ("Bea")]) ("") 1
          ("2025-03-12")))
        = some (PyVal.str (pyReprVal (PyVal.list [PyVal.str ("Bea")]))) :=
  ⟨(c3_toDict_shape_amended _ [PyVal.str ("Bea")] rfl).1,
   (c3_toDict_shape_amended _ [PyVal.str ("Bea")] rfl).2.2.2.2.2.2.2.2.2.2.2.2.2.2⟩


theorem filterMap_clean_fixed : ∀ (cols : List String),
    (∀ c ∈ cols, cleanVal c = c ∧ ¬(c = "")) →
    (cols.map PyVal.str).filterMap (fun x =>
      let s := cleanValPy x
      if s = "" then Option.none else some s) = cols := by
  intro cols
  induction cols with
  | nil =>
    intro _
    rfl
  | cons c cs ih =>
    intro h
    have hc := h c (List.mem_cons_self _ _)
    rw [List.map_cons, List.filterMap_cons]
    dsimp only
    rw [show cleanValPy (PyVal.str c) = cleanVal c from rfl, hc.1, if_neg hc.2]
    dsimp only
    rw [ih (fun x hx => h x (List.mem_cons_of_mem _ hx))]

theorem sanitizeCollabs_fixed (cols : List String)
    (h : ∀ c ∈ cols, cleanVal c = c ∧ ¬(c = "")) :
    sanitizeCollabs (PyVal.list (cols.map PyVal.str)) = PyVal.list (cols.map PyVal.str) := by
  cases cols with
  | nil => rfl
  | cons c cs =>
    have hfm := filterMap_clean_fixed (c :: cs) h
    rw [List.map_cons] at hfm ⊢
    rw [show sanitizeCollabs (PyVal.list (PyVal.str c :: cs.map PyVal.str))
        = PyVal.list (((PyVal.str c :: cs.map PyVal.str).filterMap (fun x =>
            let s := cleanValPy x
            if s = "" then Option.none else some s)).map PyVal.str) from rfl]
    rw [hfm, List.map_cons]

theorem pyReprVal_list_ne_empty (xs : List PyVal) : ¬(pyReprVal (PyVal.list xs) = "") := by
  intro h
  have hd := congrArg String.data h
  rw [pyReprVal] at hd
  simp [pyReprValChars] at hd

/-- C2 counterexample: the task constructed from the collaborator input
`"a&amp;lt;x&amp;gt;b"` stores the collaborator `"a&lt;x&gt;b"`; encoding it
to the spreadsheet row shape and decoding the row back re-runs the
sanitization, which unescapes the stored entities and strips the resulting
tag, so the decoded collaborators list differs from the original. -/
theorem c2_sheet_roundtrip_counterexample :
    constructTask ("Tarefa") ("Maicon") ("Outros") ("Alta") ("Pendente")
        (DueInput.str ("2025-03-12")) ("") (PyVal.list [PyVal.str ("a.pdf")])
        (PyVal.list [PyVal.str ("a&amp;lt;x&amp;gt;b")]) ("") 1 ("2025-03-12")
      = some (Task.mk ("Tarefa") ("Maicon") ("Outros") ("Alta") ("Pendente")
          ("2025-03-12") ("") (PyVal.list [PyVal.str ("a.pdf")])
          (PyVal.list [PyVal.str ("a&lt;x&gt;b")]) ("") 1 ("2025-03-12"))
    ∧ ∃ t2, sheetRoundTrip ("2025-03-12") 7
        (Task.mk ("Tarefa") ("Maicon") ("Outros") ("Alta") ("Pendente")
          ("2025-03-12") ("") (PyVal.list [PyVal.str ("a.pdf")])
          (PyVal.list [PyVal.str ("a&lt;x&gt;b")]) ("") 1 ("2025-03-12")) = some t2
        ∧ t2.collaborators ≠ PyVal.list [PyVal.str ("a&lt;x&gt;b")]
        ∧ t2.collaborators = PyVal.list [PyVal.str ("ab")] := by
  refine ⟨rfl, Task.mk ("Tarefa") ("Maicon") ("Outros") ("Alta") ("Pendente")
      ("2025-03-12") ("") (PyVal.list [PyVal.str ("a.pdf")])
      (PyVal.list [PyVal.str ("ab")]) ("") 1 ("2025-03-12"),
    rfl, PyVal.ne_of_beq_false rfl, rfl⟩

/-- C2 amended.  Encoding a constructed task to the spreadsheet row shape
and decoding the row back behaves as follows.  If the stored (sanitized)
title strips to blank — such tasks are constructible, see the C4
counterexample — decoding yields no task at all, because `from_dict`
re-validates the title.  Otherwise, for any attachments list of strings and
any collaborators list of strings, decoding yields a task whose attachments
list is identical to the original — including the empty list and strings
with embedded commas, and independent of the collaborators — and whose
collaborators list is the re-sanitized original, which equals the original
whenever each collaborator is a non-empty fixed point of the
construction-time sanitization (as every entity-free, tag-free, trimmed
name is). -/
theorem c2_sheet_roundtrip_amended (t : Task) (nowStr : String) (nowId : Int) :
    (pyStrip t.title = "" → sheetRoundTrip nowStr nowId t = Option.none)
    ∧ (∀ atts cols : List String,
        ¬(pyStrip t.title = "") →
        t.attachments = PyVal.list (atts.map PyVal.str) →
        t.collaborators = PyVal.list (cols.map PyVal.str) →
        ∃ t2, sheetRoundTrip nowStr nowId t = some t2
          ∧ t2.attachments = t.attachments
          ∧ t2.collaborators = sanitizeCollabs (PyVal.list (cols.map PyVal.str))
          ∧ ((∀ c ∈ cols, cleanVal c = c ∧ ¬(c = "")) →
              t2.collaborators = t.collaborators)) := by
  constructor
  · intro hblank
    simp only [sheetRoundTrip, sheetEncodeRow, sheetDecodeRow, Task.toDict,
      Task.fromDict, replaceKey, pyGet, pyGetStr, pyGetInt, List.lookup,
      List.map_cons, List.map_nil, constructTask]
    simp [hblank]
  · intro atts cols htitle hatt hcol
    have hne := pyReprVal_list_ne_empty ((cols.map PyVal.str))
    have hrt : sheetRoundTrip nowStr nowId t = some
        (Task.mk (cleanVal t.title) t.responsible t.category t.priority t.status
          t.due_date t.description (PyVal.list (atts.map PyVal.str))
          (sanitizeCollabs (PyVal.list (cols.map PyVal.str)))
          t.manager_feedback t.id t.created_at) := by
      simp only [sheetRoundTrip, sheetEncodeRow, sheetDecodeRow, Task.toDict,
        Task.fromDict, replaceKey, pyGet, pyGetStr, pyGetInt, List.lookup, hatt, hcol,
        pyStrVal, List.map_cons, List.map_nil, constructTask]
      simp [literalEval_repr_strList, hne, htitle]
    refine ⟨_, hrt, by rw [hatt], rfl, ?_⟩
    intro hfix
    rw [show (Task.mk (cleanVal t.title) t.responsible t.category t.priority t.status
        t.due_date t.description (PyVal.list (atts.map PyVal.str))
        (sanitizeCollabs (PyVal.list (cols.map PyVal.str)))
        t.manager_feedback t.id t.created_at).collaborators
      = sanitizeCollabs (PyVal.list (cols.map PyVal.str)) from rfl]
    rw [sanitizeCollabs_fixed cols hfix, hcol]

/-- C2 witness: a task whose stored title is blank (constructed from a
tag-only input) decodes to nothing, while a task with a valid title, two
attachment paths and a collaborator name with an embedded comma round-trips
unchanged through the spreadsheet row shape. -/
theorem c2_sheet_roundtrip_witness :
    sheetRoundTrip ("2025-03-12") 7
        (Task.mk ("") ("Maicon") ("Outros") ("Alta") ("Pendente")
          ("2025-03-12") ("") (PyVal.list [PyVal.str ("a.pdf")])
          (PyVal.list [PyVal.str ("Ana")]) ("") 1 ("2025-03-12")) = Option.none
    ∧ ∃ t2, sheetRoundTrip ("2025-03-12") 7
        (Task.mk ("Tarefa") ("Maicon") ("Outros") ("Alta") ("Pendente")
          ("2025-03-12") ("") (PyVal.list [PyVal.str ("a.pdf"), PyVal.str ("b c.png")])
          (PyVal.list [PyVal.str ("Ana, Bea")]) ("") 1 ("2025-03-12")) = some t2
      ∧ t2.attachments
          = PyVal.list [PyVal.str ("a.pdf"), PyVal.str ("b c.png")]
      ∧ t2.collaborators = PyVal.list [PyVal.str ("Ana, Bea")] := by
  refine ⟨(c2_sheet_roundtrip_amended
      (Task.mk ("") ("Maicon") ("Outros") ("Alta") ("Pendente")
        ("2025-03-12") ("") (PyVal.list [PyVal.str ("a.pdf")])
        (PyVal.list [PyVal.str ("Ana")]) ("") 1 ("2025-03-12"))
      ("2025-03-12") 7).1 (by decide), ?_⟩
  obtain ⟨t2, h1, h2, h3, h4⟩ := (c2_sheet_roundtrip_amended
      (Task.mk ("Tarefa") ("Maicon") ("Outros") ("Alta") ("Pendente")
        ("2025-03-12") ("") (PyVal.list [PyVal.str ("a.pdf"), PyVal.str ("b c.png")])
        (PyVal.list [PyVal.str ("Ana, Bea")]) ("") 1 ("2025-03-12"))
      ("2025-03-12") 7).2 ["a.pdf", "b c.png"] ["Ana, Bea"]
      (by decide) rfl rfl
  exact ⟨t2, h1, h2, h4 (by decide)⟩


theorem stringAppendCancelLeft (q a b : String) (h : q ++ a = q ++ b) : a = b := by
  have hd := congrArg String.data h
  simp only [String.data_append] at hd
  have h2 := congrArg String.mk (List.append_cancel_left hd)
  rwa [strMkData, strMkData] at h2

/-- C6 counterexample: nothing in `TaskUpdate.from_dict` forces the derived
ids of two records differing only in the index to be distinct — the id is a
reduction of the seeded builtin string hash, and a hash collision on the two
(distinct) derived strings yields equal ids, as the constant hash function
exhibits. -/
theorem c6_hash_collision_counterexample :
    ¬(uniqueStr 1 ("2024-01-01 10:00:00") ("conteudo") 0
      = uniqueStr 1 ("2024-01-01 10:00:00") ("conteudo") 1)
    ∧ (TaskUpdate.fromDict (fun _ => 0)
        (UpdateRecord.mk 1 ("conteudo") ("2024-01-01 10:00:00") ("Maicon") Option.none) 0).id
      = (TaskUpdate.fromDict (fun _ => 0)
        (UpdateRecord.mk 1 ("conteudo") ("2024-01-01 10:00:00") ("Maicon") Option.none) 1).id :=
  ⟨by decide, rfl⟩

/-- C6 amended.  For a record lacking an `id`, the derived id is a function
of exactly (task_id, timestamp, first 20 characters of content, index) and
the process hash function: records agreeing on that tuple get the same id;
records differing only in the index hash *different* derived strings, and
their ids differ whenever the hash values of those strings are not congruent
modulo `2^31` — equality of ids can occur only through such a hash
collision. -/
theorem c6_fromDict_id_amended (hashF : String → Int) (d1 d2 : UpdateRecord)
    (i j : Nat)
    (h1 : d1.id = Option.none) (h2 : d2.id = Option.none)
    (htid : d1.task_id = d2.task_id) (hts : d1.timestamp = d2.timestamp)
    (hc : d1.content.take 20 = d2.content.take 20) :
    (i = j → (TaskUpdate.fromDict hashF d1 i).id = (TaskUpdate.fromDict hashF d2 j).id)
    ∧ (¬(i = j) → ¬(uniqueStr d1.task_id d1.timestamp d1.content i
        = uniqueStr d2.task_id d2.timestamp d2.content j))
    ∧ (¬((hashF (uniqueStr d1.task_id d1.timestamp d1.content i)).emod (2 ^ 31)
        = (hashF (uniqueStr d2.task_id d2.timestamp d2.content j)).emod (2 ^ 31)) →
        ¬((TaskUpdate.fromDict hashF d1 i).id = (TaskUpdate.fromDict hashF d2 j).id)) := by
  have hid1 : (TaskUpdate.fromDict hashF d1 i).id
      = (hashF (uniqueStr d1.task_id d1.timestamp d1.content i)).emod (2 ^ 31) := by
    simp [TaskUpdate.fromDict, h1]
  have hid2 : (TaskUpdate.fromDict hashF d2 j).id
      = (hashF (uniqueStr d2.task_id d2.timestamp d2.content j)).emod (2 ^ 31) := by
    simp [TaskUpdate.fromDict, h2]
  have hstr : ∀ k : Nat, uniqueStr d1.task_id d1.timestamp d1.content k
      = uniqueStr d2.task_id d2.timestamp d2.content k := by
    intro k
    rw [uniqueStr, uniqueStr, htid, hts, hc]
  refine ⟨?_, ?_, ?_⟩
  · intro hij
    subst hij
    rw [hid1, hid2, hstr i]
  · intro hij heq
    apply hij
    rw [hstr i] at heq
    rw [uniqueStr, uniqueStr] at heq
    exact pyNatStr_injective (stringAppendCancelLeft _ _ _ heq)
  · intro hne heq
    rw [hid1, hid2] at heq
    exact hne heq

/-- C6 witness: for a concrete hash function and a concrete legacy record,
indices 0 and 1 derive different strings and (since this hash function does
not collide on them) different ids. -/
theorem c6_fromDict_id_witness :
    ¬(uniqueStr 1 ("ts") ("c") 0 = uniqueStr 1 ("ts") ("c") 1)
    ∧ ¬((TaskUpdate.fromDict (fun s => (s.data.count ('1') : Int))
          (UpdateRecord.mk 1 ("c") ("ts") ("Maicon") Option.none) 0).id
        = (TaskUpdate.fromDict (fun s => (s.data.count ('1') : Int))
          (UpdateRecord.mk 1 ("c") ("ts") ("Maicon") Option.none) 1).id) := by
  have H := c6_fromDict_id_amended (fun s => (s.data.count ('1') : Int))
    (UpdateRecord.mk 1 ("c") ("ts") ("Maicon") Option.none)
    (UpdateRecord.mk 1 ("c") ("ts") ("Maicon") Option.none) 0 1 rfl rfl rfl rfl rfl
  exact ⟨H.2.1 (by decide), H.2.2 (by decide)⟩

theorem fromDict_toRecord (hashF : String → Int) (u : TaskUpdate) (n : Nat) :
    TaskUpdate.fromDict hashF (TaskUpdate.toRecord u) n = u := rfl

theorem loadUpdates_saveUpdates (hashF : String → Int) (us : List TaskUpdate) :
    loadUpdates hashF (saveUpdates us) = us := by
  suffices h : ∀ (n : Nat) (vs : List TaskUpdate),
      ((vs.map TaskUpdate.toRecord).enumFrom n).map
        (fun p => TaskUpdate.fromDict hashF p.2 p.1) = vs by
    exact h 0 us
  intro n vs
  induction vs generalizing n with
  | nil => rfl
  | cons v vs ih =>
    rw [List.map_cons, List.enumFrom_cons, List.map_cons, fromDict_toRecord, ih]

theorem length_filter_ne_id (uid : Int) (u : TaskUpdate) (hid : u.id = uid) :
    ∀ L : List TaskUpdate, (L.map TaskUpdate.id).Nodup → u ∈ L →
    (L.filter (fun v => v.id != uid)).length + 1 = L.length := by
  intro L
  induction L with
  | nil =>
    intro _ hu
    simp at hu
  | cons v L ih =>
    intro hnodup hu
    rw [List.map_cons, List.nodup_cons] at hnodup
    rcases List.mem_cons.mp hu with rfl | hmem
    · have hrest : L.filter (fun v2 => v2.id != uid) = L := by
        apply List.filter_eq_self.mpr
        intro x hx
        have hxne : ¬(x.id = uid) := by
          intro hx2
          exact hnodup.1 (List.mem_map.mpr ⟨x, hx, by rw [hx2, hid]⟩)
        simpa using hxne
      rw [List.filter_cons]
      simp [hid, hrest]
    · have hv : ¬(v.id = uid) := by
        intro hveq
        exact hnodup.1 (List.mem_map.mpr ⟨u, hmem, by rw [hid, hveq]⟩)
      rw [List.filter_cons]
      have : (v.id != uid) = true := by simpa using hv
      rw [if_pos this]
      rw [List.length_cons, List.length_cons, ih hnodup.2 hmem]

/-- C9.  When ids are unique in the stored updates, `delete_update uid`
leaves exactly the updates whose id differs from `uid`, in order: the
deleted update disappears from its task's `get_task_updates`, every other
update (for any task) is still present unchanged, `get_task_updates` for any
task id loses only the deleted update, and the stored collection shrinks by
exactly one. -/
theorem c9_delete_update_frame (hashF : String → Int) (recs : List UpdateRecord)
    (uid : Int) (u : TaskUpdate)
    (hnodup : ((loadUpdates hashF (some recs)).map TaskUpdate.id).Nodup)
    (hu : u ∈ loadUpdates hashF (some recs)) (hid : u.id = uid) :
    loadUpdates hashF (deleteUpdate hashF uid (some recs))
      = (loadUpdates hashF (some recs)).filter (fun v => v.id != uid)
    ∧ ¬(u ∈ getTaskUpdates hashF u.task_id (deleteUpdate hashF uid (some recs)))
    ∧ (∀ v ∈ loadUpdates hashF (some recs), ¬(v.id = uid) →
        v ∈ loadUpdates hashF (deleteUpdate hashF uid (some recs)))
    ∧ (∀ tid, getTaskUpdates hashF tid (deleteUpdate hashF uid (some recs))
        = (getTaskUpdates hashF tid (some recs)).filter (fun v => v.id != uid))
    ∧ (loadUpdates hashF (deleteUpdate hashF uid (some recs))).length + 1
        = (loadUpdates hashF (some recs)).length := by
  have hload : loadUpdates hashF (deleteUpdate hashF uid (some recs))
      = (loadUpdates hashF (some recs)).filter (fun v => v.id != uid) := by
    rw [deleteUpdate, loadUpdates_saveUpdates]
  refine ⟨hload, ?_, ?_, ?_, ?_⟩
  · rw [getTaskUpdates, hload]
    intro hmem
    have h1 := (List.mem_filter.mp hmem).1
    have h2 := (List.mem_filter.mp h1).2
    simp [hid] at h2
  · intro v hv hvne
    rw [hload]
    exact List.mem_filter.mpr ⟨hv, by simpa using hvne⟩
  · intro tid
    rw [getTaskUpdates, getTaskUpdates, hload]
    exact List.filter_comm _ _ _
  · rw [hload]
    exact length_filter_ne_id uid u hid (loadUpdates hashF (some recs)) hnodup hu

/-- C9 witness: with two stored updates on different tasks, deleting the
first removes it from its task's updates and shrinks the collection by
exactly one. -/
theorem c9_delete_update_frame_witness :
    ¬(TaskUpdate.mk 10 ("a") ("t1") ("Maicon") 100
        ∈ getTaskUpdates (fun _ => 0) 10 (deleteUpdate (fun _ => 0) 100 (some
          [TaskUpdate.toRecord (TaskUpdate.mk 10 ("a") ("t1") ("Maicon") 100),
           TaskUpdate.toRecord (TaskUpdate.mk 20 ("b") ("t2") ("Maicon") 200)])))
    ∧ (loadUpdates (fun _ => 0) (deleteUpdate (fun _ => 0) 100 (some
          [TaskUpdate.toRecord (TaskUpdate.mk 10 ("a") ("t1") ("Maicon") 100),
           TaskUpdate.toRecord (TaskUpdate.mk 20 ("b") ("t2") ("Maicon") 200)]))).length + 1
      = (loadUpdates (fun _ => 0) (some
          [TaskUpdate.toRecord (TaskUpdate.mk 10 ("a") ("t1") ("Maicon") 100),
           TaskUpdate.toRecord (TaskUpdate.mk 20 ("b") ("t2") ("Maicon") 200)])).length := by
  have H := c9_delete_update_frame (fun _ => 0)
    [TaskUpdate.toRecord (TaskUpdate.mk 10 ("a") ("t1") ("Maicon") 100),
     TaskUpdate.toRecord (TaskUpdate.mk 20 ("b") ("t2") ("Maicon") 200)]
    100 (TaskUpdate.mk 10 ("a") ("t1") ("Maicon") 100)
    (by decide) (by decide) rfl
  exact ⟨H.2.1, H.2.2.2.2⟩

end Flow
